import Mathlib

/-!
Verification development for the STARKAI data-collection core.

Part 1 embeds the code of src/core/intel_collector.py (class
IntelligenceCollector): the three collect methods, the data cache (a
Python dict, modelled as an association list with in-place replacement)
and the export-selection logic of export_data.

Part 2 models the repository's aggregator component that is referenced
but not present under src/: interface/cli.py line 15 imports
IntelCollector from core.intel_collector and line 83 calls
collect_all_intel(), and test_basic_functionality.py line 16 imports the
same class, yet core/intel_collector.py defines neither.  That missing
component (TTL result cache, per-source rate limiter, fetch worker,
aggregator) is modelled from the spec, as marked on each definition.
-/

namespace StarkCode

/-- Python exceptions are abstracted to their message; the code under
verification only ever prints them. -/
def PyErr : Type := String

/-- Python dict lookup on an association list (keys are unique in a dict;
the first binding is the binding). -/
def dictGet {β : Type} (k : String) : List (String × β) → Option β
  | [] => none
  | (k', v) :: rest => if k' = k then some v else dictGet k rest

/-- Python dict assignment d[k] = v: replace the binding in place when
the key exists, otherwise append the new binding (insertion order). -/
def dictSet {β : Type} (k : String) (v : β) : List (String × β) → List (String × β)
  | [] => [(k, v)]
  | (k', v') :: rest => if k' = k then (k, v) :: rest else (k', v') :: dictSet k v rest

/-- A Reddit submission as accessed by collect_reddit_data
(intel_collector.py lines 130-141): the attribute paths read from praw
are flattened into record fields. -/
structure Submission where
  sid : String
  title : String
  author : String
  score : Int
  url : String
  created_utc : Nat
  num_comments : Nat
  selftext : String
deriving DecidableEq

/-- The post record built at intel_collector.py lines 131-141. -/
structure RedditPost where
  sid : String
  title : String
  author : String
  score : Int
  url : String
  created_utc : Nat
  num_comments : Nat
  selftext : String
  subreddit : String
deriving DecidableEq

/-- intel_collector.py lines 131-141: one post dict from one submission;
selftext is truncated to 500 characters when non-empty (Python slice
selftext[:500] guarded by truthiness). -/
def mkPost (subreddit_name : String) (s : Submission) : RedditPost :=
  { sid := s.sid
    title := s.title
    author := s.author
    score := s.score
    url := s.url
    created_utc := s.created_utc
    num_comments := s.num_comments
    selftext := if s.selftext = "" then "" else String.mk (s.selftext.data.take 500)
    subreddit := subreddit_name }

/-- A raw tweet as accessed by collect_twitter_data (lines 166-176):
public_metrics is the metrics dict read with .get and default 0. -/
structure RawTweet where
  tid : Nat
  text : String
  author_id : Nat
  created_at : String
  public_metrics : List (String × Nat)
deriving DecidableEq

/-- The tweet record built at intel_collector.py lines 167-176. -/
structure TweetData where
  tid : Nat
  text : String
  author_id : Nat
  created_at : String
  retweet_count : Nat
  like_count : Nat
  reply_count : Nat
  quote_count : Nat
deriving DecidableEq

/-- Python dict.get(k, 0) on the metrics dict. -/
def metricGet (m : List (String × Nat)) (k : String) : Nat :=
  (dictGet k m).getD 0

/-- intel_collector.py lines 167-176: one tweet dict from one raw tweet. -/
def mkTweet (t : RawTweet) : TweetData :=
  { tid := t.tid
    text := t.text
    author_id := t.author_id
    created_at := t.created_at
    retweet_count := metricGet t.public_metrics "retweet_count"
    like_count := metricGet t.public_metrics "like_count"
    reply_count := metricGet t.public_metrics "reply_count"
    quote_count := metricGet t.public_metrics "quote_count" }

/-- A commit as accessed by collect_github_data (lines 194-200): the
nested attribute paths (commit.sha, commit.commit.message,
commit.commit.author.name, commit.commit.author.date) are flattened. -/
structure CommitData where
  sha : String
  message : String
  author : String
  date : String
deriving DecidableEq

/-- An issue as accessed by collect_github_data (lines 203-210). -/
structure IssueData where
  number : Nat
  title : String
  state : String
  created_at : String
  user_login : String
deriving DecidableEq

/-- The GitHub repo object as accessed by collect_github_data: scalar
attributes plus the commit and open-issue listings it iterates. -/
structure RepoIn where
  name : String
  full_name : String
  description : String
  stars : Nat
  forks : Nat
  language : String
  created_at : String
  updated_at : String
  commits : List CommitData
  issues_open : List IssueData
deriving DecidableEq

/-- A value of the repo_data dict built at intel_collector.py
lines 212-223 (string field, numeric field, commit list, issue list). -/
inductive GhVal where
  | str (v : String)
  | nat (v : Nat)
  | commitList (v : List CommitData)
  | issueList (v : List IssueData)
deriving DecidableEq

/-- collect_github_data returns a dict: its value on success is the
ten-field repo_data dict, and on failure the empty dict. -/
abbrev GithubDict : Type := List (String × GhVal)

/-- A value stored in self.data_cache: reddit stores a post list,
twitter a tweet list, github the repo_data dict. -/
inductive CacheVal where
  | reddit (posts : List RedditPost)
  | twitter (tweets : List TweetData)
  | github (d : List (String × GhVal))
deriving DecidableEq

/-- self.data_cache (intel_collector.py line 40): a Python dict from
string keys to collected datasets. -/
abbrev DataCache : Type := List (String × CacheVal)

/-- intel_collector.py lines 121-148, collect_reddit_data.  The client
is None when unconfigured; otherwise its observable behaviour is the
hot-listing call, which either yields the submissions or raises (praw
attribute access inside the loop raising is the same observable: the
except block runs before the cache write).  On success the posts are
cached under key reddit_ ++ name and returned; on any exception the
method prints and returns the empty list, leaving the cache untouched. -/
def collectRedditData
    (reddit_client : Option (String → Nat → Except PyErr (List Submission)))
    (subreddit_name : String) (limit : Nat) (cache : DataCache) :
    List RedditPost × DataCache :=
  match reddit_client with
  | none => ([], cache)
  | some hot =>
    match hot subreddit_name limit with
    | .error _ => ([], cache)
    | .ok subs =>
      let posts := subs.map (mkPost subreddit_name)
      (posts, dictSet ("reddit_" ++ subreddit_name) (.reddit posts) cache)

/-- intel_collector.py lines 150-183, collect_twitter_data.  The search
result's data field is None when there are no results; the guard
`if not tweets.data` also fires on an empty list (Python truthiness),
returning before the cache write.  Any exception yields the empty list
with the cache untouched. -/
def collectTwitterData
    (twitter_client : Option (String → Nat → Except PyErr (Option (List RawTweet))))
    (query : String) (max_results : Nat) (cache : DataCache) :
    List TweetData × DataCache :=
  match twitter_client with
  | none => ([], cache)
  | some search =>
    match search query max_results with
    | .error _ => ([], cache)
    | .ok none => ([], cache)
    | .ok (some ts) =>
      if ts = [] then ([], cache)
      else
        let tweet_data := ts.map mkTweet
        (tweet_data, dictSet ("twitter_" ++ query) (.twitter tweet_data) cache)

/-- intel_collector.py lines 185-230, collect_github_data.  On success
the first ten commits and first ten open issues are folded into the
repo_data dict, cached under github_ ++ repo_name and returned; on any
exception the method returns the empty dict with the cache untouched. -/
def collectGithubData
    (github_client : Option (String → Except PyErr RepoIn))
    (repo_name : String) (cache : DataCache) :
    GithubDict × DataCache :=
  match github_client with
  | none => ([], cache)
  | some get_repo =>
    match get_repo repo_name with
    | .error _ => ([], cache)
    | .ok r =>
      let commits := r.commits.take 10
      let issues := r.issues_open.take 10
      let repo_data : List (String × GhVal) :=
        [("name", .str r.name),
         ("full_name", .str r.full_name),
         ("description", .str r.description),
         ("stars", .nat r.stars),
         ("forks", .nat r.forks),
         ("language", .str r.language),
         ("created_at", .str r.created_at),
         ("updated_at", .str r.updated_at),
         ("commits", .commitList commits),
         ("issues", .issueList issues)]
      (repo_data, dictSet ("github_" ++ repo_name) (.github repo_data) cache)

/-- Python substring membership needle in hay over character lists. -/
def isPrefixL : List Char → List Char → Bool
  | [], _ => true
  | _ :: _, [] => false
  | a :: as, b :: bs => a = b && isPrefixL as bs

/-- Python substring test: needle occurs contiguously anywhere in hay. -/
def containsSub (needle : List Char) : List Char → Bool
  | [] => isPrefixL needle []
  | c :: t => isPrefixL needle (c :: t) || containsSub needle t

/-- Python `data_type in k` on strings. -/
def strHasSub (data_type k : String) : Bool :=
  containsSub data_type.data k.data

/-- intel_collector.py lines 286-291, the selection step of export_data:
with data_type "all" the whole data cache is exported, otherwise the
dict comprehension keeps the entries whose key contains data_type. -/
def exportSelect (data_type : String) (cache : DataCache) : DataCache :=
  if data_type = "all" then cache
  else cache.filter (fun kv => strHasSub data_type kv.1)

end StarkCode

namespace StarkSpec

open StarkCode (dictGet dictSet)

/-- Modelled from the spec: the CacheEntry record of the Result Cache
owned by the missing IntelCollector (imported at interface/cli.py line
15 and test_basic_functionality.py line 16 but absent from
core/intel_collector.py): a value and the time it was stored. -/
structure CacheEntry (α : Type) where
  value : α
  storedAt : Nat
deriving DecidableEq

/-- Modelled from the spec: the Result Cache of the missing
IntelCollector, a mapping from cache key to entry. -/
def Cache (α : Type) : Type := List (String × CacheEntry α)

/-- Modelled from the spec: Result Cache get, returning Miss (none) if
the key is absent or if now - storedAt is at least ttl. -/
def cacheGet {α : Type} (ttl now : Nat) (c : Cache α) (key : String) :
    Option (CacheEntry α) :=
  match dictGet key c with
  | none => none
  | some e => if now - e.storedAt < ttl then some e else none

/-- Modelled from the spec: Result Cache put, storing the value with
storedAt equal to the current time, overwriting any prior entry for the
key (last-writer-wins). -/
def cachePut {α : Type} (now : Nat) (key : String) (v : α) (c : Cache α) :
    Cache α :=
  dictSet key { value := v, storedAt := now } c

/-- Modelled from the spec: SourceConfig of the Source Registry that the
missing IntelCollector looks sources up in. -/
structure SourceConfig where
  name : String
  baseAddress : String
  headers : List (String × String)
  minInterval : Nat
deriving DecidableEq

/-- Modelled from the spec: the error taxonomy of FetchOutcome. -/
inductive ErrKind where
  | unknownSource
  | transportError
  | httpError
  | decodeError
  | timeout
  | resourceNotReady
deriving DecidableEq

/-- Modelled from the spec: the FetchOutcome variant produced by a Fetch
Worker of the missing IntelCollector. -/
inductive FetchOutcome (α : Type) where
  | success (source query : String) (value : α) (fromCache : Bool)
  | failure (source query : String) (errorKind : ErrKind) (detail : String)
deriving DecidableEq

/-- Modelled from the spec: rate-limiter acquire for one source, given
the recorded lastRequestAt (none when the source has not been used) and
the current time: the request is issued no earlier than lastRequestAt
plus minInterval. -/
def acquire (minInterval : Nat) (last : Option Nat) (now : Nat) : Nat :=
  match last with
  | none => now
  | some l => max now (l + minInterval)

/-- Modelled from the spec: the serialized sequence of issue times the
rate limiter grants for one source, given the request arrival times in
the order the limiter serializes them (the spec requires the
read-compute-update sequence per source to be serialized across all
concurrent workers); each grant records the new lastRequestAt. -/
def grantTrace (minInterval : Nat) : Option Nat → List Nat → List Nat
  | _, [] => []
  | last, t :: ts =>
    let g := acquire minInterval last t
    g :: grantTrace minInterval (some g) ts

/-- Modelled from the spec: the mutable state a Fetch Worker of the
missing IntelCollector threads: the Result Cache, the per-source
lastRequestAt map, the current time, and the log of outbound requests
issued so far (source, query, issue time). -/
structure FetchState (α : Type) where
  cache : Cache α
  rl : List (String × Nat)
  now : Nat
  log : List (String × String × Nat)

/-- Modelled from the spec: the fetch algorithm of the missing
IntelCollector's Fetch Worker (spec section 4.4): cache key is the
concatenation of source and query; a fresh cache entry is returned as a
from-cache success with no outbound call; an unknown source is a
failure; otherwise the worker waits on the rate limiter, issues the
outbound request (appended to the log), and on success stores the value
before returning, while on failure the cache is left untouched. -/
def fetch {α : Type} (ttl : Nat) (registry : List (String × SourceConfig))
    (http : String → String → Except (ErrKind × String) α)
    (s q : String) (st : FetchState α) : FetchOutcome α × FetchState α :=
  let key := s ++ q
  match cacheGet ttl st.now st.cache key with
  | some e => (.success s q e.value true, st)
  | none =>
    match dictGet s registry with
    | none => (.failure s q .unknownSource "unknown source", st)
    | some cfg =>
      let g := acquire cfg.minInterval (dictGet s st.rl) st.now
      let st1 : FetchState α :=
        { cache := st.cache
          rl := dictSet s g st.rl
          now := g
          log := st.log ++ [(s, q, g)] }
      match http s q with
      | .error (k, d) => (.failure s q k d, st1)
      | .ok v =>
        (.success s q v false, { st1 with cache := cachePut g key v st1.cache })

/-- Modelled from the spec: the per-source leg of the missing
collect_all_intel aggregation, running one fetch per query and
collecting every outcome. -/
def runQueries {α : Type} (ttl : Nat) (registry : List (String × SourceConfig))
    (http : String → String → Except (ErrKind × String) α)
    (s : String) : List String → FetchState α → List (FetchOutcome α) × FetchState α
  | [], st => ([], st)
  | q :: qs, st =>
    let r := fetch ttl registry http s q st
    let rs := runQueries ttl registry http s qs r.2
    (r.1 :: rs.1, rs.2)

/-- Modelled from the spec: the missing IntelCollector.collect_all_intel
aggregator (called at interface/cli.py line 83): fan out the cross
product of sources and queries, collect every outcome, and group the
outcomes by source into the report. -/
def collect {α : Type} (ttl : Nat) (registry : List (String × SourceConfig))
    (http : String → String → Except (ErrKind × String) α)
    (queries : List String) :
    List String → FetchState α → List (String × List (FetchOutcome α)) × FetchState α
  | [], st => ([], st)
  | s :: ss, st =>
    let r := runQueries ttl registry http s queries st
    let rs := collect ttl registry http queries ss r.2
    ((s, r.1) :: rs.1, rs.2)

end StarkSpec

namespace StarkDemo

open StarkCode StarkSpec

/-- A concrete registry used by the closed instantiations below. -/
def demoReg : List (String × SourceConfig) :=
  [("github", { name := "github", baseAddress := "https://api.github.com",
                headers := [], minInterval := 1 })]

/-- A concrete transport that always succeeds with the value 42. -/
def demoHttp : String → String → Except (ErrKind × String) Nat :=
  fun _ _ => .ok 42

/-- A concrete transport that always fails with a transport error. -/
def demoHttpErr : String → String → Except (ErrKind × String) Nat :=
  fun _ _ => .error (.transportError, "boom")

/-- The initial worker state: empty cache, no limiter history, time 0. -/
def demoSt0 : FetchState Nat :=
  { cache := [], rl := [], now := 0, log := [] }

/-- A concrete Reddit listing call that always raises. -/
def demoHotErr : String → Nat → Except PyErr (List Submission) :=
  fun _ _ => .error "api down"

/-- A concrete Twitter search call that always raises. -/
def demoSearchErr : String → Nat → Except PyErr (Option (List RawTweet)) :=
  fun _ _ => .error "api down"

/-- A concrete Reddit listing call that returns no submissions. -/
def demoHotEmpty : String → Nat → Except PyErr (List Submission) :=
  fun _ _ => .ok []

/-- A concrete Twitter search call whose result has no data. -/
def demoSearchEmpty : String → Nat → Except PyErr (Option (List RawTweet)) :=
  fun _ _ => .ok none

/-- A concrete data cache with one reddit entry and one github entry. -/
def demoCache : DataCache :=
  [("reddit_rust", .reddit []), ("github_lean", .github [])]

end StarkDemo

namespace StarkCode

theorem dictGet_dictSet_self {β : Type} (k : String) (v : β) (m : List (String × β)) :
    dictGet k (dictSet k v m) = some v := by
  induction m with
  | nil => simp [dictGet, dictSet]
  | cons kv rest ih =>
    obtain ⟨k', v'⟩ := kv
    by_cases h : k' = k
    · simp [dictSet, dictGet, h]
    · simp [dictSet, dictGet, h, ih]

theorem isPrefixL_iff_append (n : List Char) :
    ∀ h : List Char, isPrefixL n h = true ↔ ∃ s, h = n ++ s := by
  induction n with
  | nil => intro h; simp [isPrefixL]
  | cons a as ih =>
    intro h
    cases h with
    | nil =>
      simp [isPrefixL]
    | cons b bs =>
      simp only [isPrefixL, Bool.and_eq_true, decide_eq_true_eq, ih bs, List.cons_append,
        List.cons.injEq]
      constructor
      · rintro ⟨rfl, s, rfl⟩; exact ⟨s, rfl, rfl⟩
      · rintro ⟨s, rfl, rfl⟩; exact ⟨rfl, s, rfl⟩

theorem containsSub_iff (n : List Char) :
    ∀ h : List Char, containsSub n h = true ↔ ∃ p s, h = p ++ n ++ s := by
  intro h
  induction h with
  | nil =>
    simp only [containsSub, isPrefixL_iff_append]
    constructor
    · rintro ⟨s, hs⟩
      rcases List.append_eq_nil.mp hs.symm with ⟨rfl, rfl⟩
      exact ⟨[], [], rfl⟩
    · rintro ⟨p, s, hps⟩
      rcases List.append_eq_nil.mp hps.symm with ⟨hpn, rfl⟩
      rcases List.append_eq_nil.mp hpn with ⟨rfl, rfl⟩
      exact ⟨[], rfl⟩
  | cons c t ih =>
    simp only [containsSub, Bool.or_eq_true, isPrefixL_iff_append, ih]
    constructor
    · rintro (⟨s, hs⟩ | ⟨p, s, hps⟩)
      · exact ⟨[], s, by simpa using hs⟩
      · exact ⟨c :: p, s, by simp [hps]⟩
    · rintro ⟨p, s, hps⟩
      cases p with
      | nil => exact Or.inl ⟨s, by simpa using hps⟩
      | cons c' p' =>
        rcases List.cons.injEq .. ▸ hps with ⟨rfl, ht⟩
        exact Or.inr ⟨p', s, ht⟩

end StarkCode



namespace StarkSpec

open StarkCode (dictGet dictSet dictGet_dictSet_self)

theorem cacheGet_fresh {α : Type} (ttl now : Nat) (c : Cache α) (key : String)
    (e : CacheEntry α) (hg : dictGet key c = some e) (hf : now - e.storedAt < ttl) :
    cacheGet ttl now c key = some e := by
  simp [cacheGet, hg, hf]


theorem cacheGet_some_elim {α : Type} (ttl now : Nat) (c : Cache α) (key : String)
    (e : CacheEntry α) (h : cacheGet ttl now c key = some e) :
    dictGet key c = some e ∧ now - e.storedAt < ttl := by
  unfold cacheGet at h
  split at h
  · simp at h
  · rename_i e' hg
    split at h
    · rename_i hf
      injection h with h
      subst h
      exact ⟨hg, hf⟩
    · simp at h

theorem fetch_hit {α : Type} (ttl : Nat) (registry : List (String × SourceConfig))
    (http : String → String → Except (ErrKind × String) α) (s q : String)
    (st : FetchState α) (e : CacheEntry α)
    (h : cacheGet ttl st.now st.cache (s ++ q) = some e) :
    fetch ttl registry http s q st = (.success s q e.value true, st) := by
  simp [fetch, h]

theorem fetch_unknown {α : Type} (ttl : Nat) (registry : List (String × SourceConfig))
    (http : String → String → Except (ErrKind × String) α) (s q : String)
    (st : FetchState α)
    (hcg : cacheGet ttl st.now st.cache (s ++ q) = none)
    (hr : dictGet s registry = none) :
    fetch ttl registry http s q st =
      (.failure s q .unknownSource "unknown source", st) := by
  simp [fetch, hcg, hr]

theorem fetch_err {α : Type} (ttl : Nat) (registry : List (String × SourceConfig))
    (http : String → String → Except (ErrKind × String) α) (s q : String)
    (st : FetchState α) (cfg : SourceConfig) (k : ErrKind) (d : String)
    (hcg : cacheGet ttl st.now st.cache (s ++ q) = none)
    (hr : dictGet s registry = some cfg)
    (hh : http s q = .error (k, d)) :
    fetch ttl registry http s q st =
      (.failure s q k d,
       { cache := st.cache
         rl := dictSet s (acquire cfg.minInterval (dictGet s st.rl) st.now) st.rl
         now := acquire cfg.minInterval (dictGet s st.rl) st.now
         log := st.log ++
           [(s, q, acquire cfg.minInterval (dictGet s st.rl) st.now)] }) := by
  simp [fetch, hcg, hr, hh]

theorem fetch_ok {α : Type} (ttl : Nat) (registry : List (String × SourceConfig))
    (http : String → String → Except (ErrKind × String) α) (s q : String)
    (st : FetchState α) (cfg : SourceConfig) (v : α)
    (hcg : cacheGet ttl st.now st.cache (s ++ q) = none)
    (hr : dictGet s registry = some cfg)
    (hh : http s q = .ok v) :
    fetch ttl registry http s q st =
      (.success s q v false,
       { cache := cachePut (acquire cfg.minInterval (dictGet s st.rl) st.now)
           (s ++ q) v st.cache
         rl := dictSet s (acquire cfg.minInterval (dictGet s st.rl) st.now) st.rl
         now := acquire cfg.minInterval (dictGet s st.rl) st.now
         log := st.log ++
           [(s, q, acquire cfg.minInterval (dictGet s st.rl) st.now)] }) := by
  simp [fetch, hcg, hr, hh]

theorem fetch_success_cache {α : Type} (ttl : Nat)
    (registry : List (String × SourceConfig))
    (http : String → String → Except (ErrKind × String) α) (s q : String)
    (st : FetchState α) (v : α) (b : Bool)
    (h1 : (fetch ttl registry http s q st).1 = .success s q v b) :
    ∃ tS, dictGet (s ++ q) (fetch ttl registry http s q st).2.cache =
      some { value := v, storedAt := tS } := by
  cases hcg : cacheGet ttl st.now st.cache (s ++ q) with
  | some e =>
    rw [fetch_hit ttl registry http s q st e hcg] at h1 ⊢
    simp at h1 ⊢
    refine ⟨e.storedAt, ?_⟩
    rw [(cacheGet_some_elim ttl st.now st.cache (s ++ q) e hcg).1]
    rw [← h1.1]
  | none =>
    cases hr : dictGet s registry with
    | none =>
      rw [fetch_unknown ttl registry http s q st hcg hr] at h1
      simp at h1
    | some cfg =>
      cases hh : http s q with
      | error kd =>
        obtain ⟨k, d⟩ := kd
        rw [fetch_err ttl registry http s q st cfg k d hcg hr hh] at h1
        simp at h1
      | ok w =>
        rw [fetch_ok ttl registry http s q st cfg w hcg hr hh] at h1 ⊢
        simp at h1 ⊢
        refine ⟨acquire cfg.minInterval (dictGet s st.rl) st.now, ?_⟩
        simp [cachePut, dictGet_dictSet_self, h1.1]

theorem fetch_log_length {α : Type} (ttl : Nat)
    (registry : List (String × SourceConfig))
    (http : String → String → Except (ErrKind × String) α) (s q : String)
    (st : FetchState α) :
    (fetch ttl registry http s q st).2.log.length ≤ st.log.length + 1 := by
  cases hcg : cacheGet ttl st.now st.cache (s ++ q) with
  | some e => rw [fetch_hit ttl registry http s q st e hcg]; simp
  | none =>
    cases hr : dictGet s registry with
    | none => rw [fetch_unknown ttl registry http s q st hcg hr]; simp
    | some cfg =>
      cases hh : http s q with
      | error kd =>
        obtain ⟨k, d⟩ := kd
        rw [fetch_err ttl registry http s q st cfg k d hcg hr hh]
        simp
      | ok w =>
        rw [fetch_ok ttl registry http s q st cfg w hcg hr hh]
        simp

theorem runQueries_length {α : Type} (ttl : Nat)
    (registry : List (String × SourceConfig))
    (http : String → String → Except (ErrKind × String) α) (s : String)
    (qs : List String) :
    ∀ st : FetchState α, (runQueries ttl registry http s qs st).1.length = qs.length := by
  induction qs with
  | nil => intro st; rfl
  | cons q qs ih => intro st; simp [runQueries, ih]

theorem collect_keys {α : Type} (ttl : Nat) (registry : List (String × SourceConfig))
    (http : String → String → Except (ErrKind × String) α) (queries : List String)
    (sources : List String) :
    ∀ st : FetchState α,
      (collect ttl registry http queries sources st).1.map Prod.fst = sources := by
  induction sources with
  | nil => intro st; rfl
  | cons s ss ih => intro st; simp [collect, ih]

theorem collect_count {α : Type} (ttl : Nat) (registry : List (String × SourceConfig))
    (http : String → String → Except (ErrKind × String) α) (queries : List String)
    (sources : List String) :
    ∀ st : FetchState α,
      ((collect ttl registry http queries sources st).1.map
        (fun p => p.2.length)).sum = sources.length * queries.length := by
  induction sources with
  | nil => intro st; simp [collect]
  | cons s ss ih =>
    intro st
    simp [collect, ih, runQueries_length]
    ring

theorem grantTrace_chain (minInterval : Nat) (ts : List Nat) :
    ∀ last : Option Nat,
      List.Chain' (fun a b => a + minInterval ≤ b) (grantTrace minInterval last ts) := by
  induction ts with
  | nil => intro last; simp [grantTrace]
  | cons t ts ih =>
    intro last
    cases ts with
    | nil => simp [grantTrace]
    | cons t2 ts2 =>
      have h2 := ih (some (acquire minInterval last t))
      simp only [grantTrace] at h2 ⊢
      refine List.chain'_cons.mpr ⟨?_, h2⟩
      exact le_max_right _ _

end StarkSpec

namespace StarkSpec

open StarkCode (dictGet dictSet dictGet_dictSet_self)

/-- C1: for every (source, query) pair, if a fetch succeeds and a second
fetch for the same pair is issued while the stored entry is still within
ttl of its storedAt, the second fetch returns the stored value as a
from-cache success and issues no outbound request (its request log is
unchanged); starting from an empty request log, at most one outbound
request is issued across the two calls. -/
theorem cache_hit_second_fetch {α : Type} (ttl : Nat)
    (registry : List (String × SourceConfig))
    (http : String → String → Except (ErrKind × String) α) (s q : String)
    (st0 : FetchState α) (v : α) (b : Bool) (t2 : Nat)
    (h0 : st0.log = [])
    (h1 : (fetch ttl registry http s q st0).1 = .success s q v b)
    (h2 : ∀ e, dictGet (s ++ q) (fetch ttl registry http s q st0).2.cache = some e →
      t2 - e.storedAt < ttl) :
    (fetch ttl registry http s q
        { (fetch ttl registry http s q st0).2 with now := t2 }).1 =
      .success s q v true ∧
    (fetch ttl registry http s q
        { (fetch ttl registry http s q st0).2 with now := t2 }).2.log =
      (fetch ttl registry http s q st0).2.log ∧
    (fetch ttl registry http s q
        { (fetch ttl registry http s q st0).2 with now := t2 }).2.log.length ≤ 1 := by
  obtain ⟨tS, hd⟩ := fetch_success_cache ttl registry http s q st0 v b h1
  have hcg2 : cacheGet ttl t2 (fetch ttl registry http s q st0).2.cache (s ++ q) =
      some { value := v, storedAt := tS } :=
    cacheGet_fresh ttl t2 _ (s ++ q) _ hd (h2 _ hd)
  have hfetch2 := fetch_hit ttl registry http s q
    { (fetch ttl registry http s q st0).2 with now := t2 }
    { value := v, storedAt := tS } hcg2
  have hlen : (fetch ttl registry http s q st0).2.log.length ≤ 1 := by
    have hgrow := fetch_log_length ttl registry http s q st0
    rw [h0] at hgrow
    simpa using hgrow
  refine ⟨?_, ?_, ?_⟩
  · rw [hfetch2]
  · rw [hfetch2]
  · rw [hfetch2]
    exact hlen

/-- Witness for C1: a concrete registry, transport and initial state. -/
theorem cache_hit_second_fetch_witness :
    (fetch 300 StarkDemo.demoReg StarkDemo.demoHttp "github" "rust"
        { (fetch 300 StarkDemo.demoReg StarkDemo.demoHttp "github" "rust"
            StarkDemo.demoSt0).2 with now := 100 }).1 =
      .success "github" "rust" 42 true ∧
    (fetch 300 StarkDemo.demoReg StarkDemo.demoHttp "github" "rust"
        { (fetch 300 StarkDemo.demoReg StarkDemo.demoHttp "github" "rust"
            StarkDemo.demoSt0).2 with now := 100 }).2.log =
      (fetch 300 StarkDemo.demoReg StarkDemo.demoHttp "github" "rust"
        StarkDemo.demoSt0).2.log ∧
    (fetch 300 StarkDemo.demoReg StarkDemo.demoHttp "github" "rust"
        { (fetch 300 StarkDemo.demoReg StarkDemo.demoHttp "github" "rust"
            StarkDemo.demoSt0).2 with now := 100 }).2.log.length ≤ 1 :=
  cache_hit_second_fetch 300 StarkDemo.demoReg StarkDemo.demoHttp "github" "rust"
    StarkDemo.demoSt0 42 false 100 rfl rfl
    (by intro e he; injection he with h; subst h; decide)

/-- C2: for every key, a get issued at a time now with now - storedAt at
least ttl returns Miss, a get within ttl of the put returns the stored
value, and an entry older than ttl is never returned as a hit. -/
theorem cacheGet_ttl_semantics {α : Type} (ttl now tP : Nat) (c : Cache α)
    (key : String) (v : α) :
    (ttl ≤ now - tP → cacheGet ttl now (cachePut tP key v c) key = none) ∧
    (now - tP < ttl →
      cacheGet ttl now (cachePut tP key v c) key =
        some { value := v, storedAt := tP }) ∧
    (∀ e, cacheGet ttl now c key = some e → now - e.storedAt < ttl) := by
  refine ⟨?_, ?_, ?_⟩
  · intro h
    simp [cacheGet, cachePut, dictGet_dictSet_self, Nat.not_lt.mpr h]
  · intro h
    simp [cacheGet, cachePut, dictGet_dictSet_self, h]
  · intro e h
    exact (cacheGet_some_elim ttl now c key e h).2

/-- Witness for C2: ttl 300, put at 50, hits at 100, misses at 400. -/
theorem cacheGet_ttl_semantics_witness :
    cacheGet 300 400 (cachePut 50 "k" (7 : Nat) []) "k" = none ∧
    cacheGet 300 100 (cachePut 50 "k" (7 : Nat) []) "k" =
      some { value := 7, storedAt := 50 } :=
  ⟨(cacheGet_ttl_semantics 300 400 50 [] "k" 7).1 (by decide),
   (cacheGet_ttl_semantics 300 100 50 [] "k" 7).2.1 (by decide)⟩

/-- C3: every error arising during a single fetch is captured inside that
fetch and surfaced as a Failure outcome; the overall collect call never
aborts, and the report of a partially failed batch is still complete and
well-formed (one entry per requested source, one outcome per pair). -/
theorem errors_become_failures {α : Type} (ttl : Nat)
    (registry : List (String × SourceConfig))
    (http : String → String → Except (ErrKind × String) α) :
    (∀ (s q : String) (st : FetchState α) (cfg : SourceConfig)
        (k : ErrKind) (d : String),
      cacheGet ttl st.now st.cache (s ++ q) = none →
      dictGet s registry = some cfg →
      http s q = .error (k, d) →
      (fetch ttl registry http s q st).1 = .failure s q k d) ∧
    (∀ (sources queries : List String) (st : FetchState α),
      (collect ttl registry http queries sources st).1.map Prod.fst = sources ∧
      ((collect ttl registry http queries sources st).1.map
        (fun p => p.2.length)).sum = sources.length * queries.length) := by
  refine ⟨?_, ?_⟩
  · intro s q st cfg k d hcg hr hh
    rw [fetch_err ttl registry http s q st cfg k d hcg hr hh]
  · intro sources queries st
    exact ⟨collect_keys ttl registry http queries sources st,
           collect_count ttl registry http queries sources st⟩

/-- Witness for C3: a transport that always fails still yields a Failure
outcome and a complete report. -/
theorem errors_become_failures_witness :
    (fetch 300 StarkDemo.demoReg StarkDemo.demoHttpErr "github" "rust"
      StarkDemo.demoSt0).1 =
      .failure "github" "rust" .transportError "boom" ∧
    (collect 300 StarkDemo.demoReg StarkDemo.demoHttpErr ["rust"] ["github"]
      StarkDemo.demoSt0).1.map Prod.fst = ["github"] :=
  ⟨(errors_become_failures 300 StarkDemo.demoReg StarkDemo.demoHttpErr).1
      "github" "rust" StarkDemo.demoSt0
      { name := "github", baseAddress := "https://api.github.com",
        headers := [], minInterval := 1 }
      .transportError "boom" rfl rfl rfl,
   ((errors_become_failures 300 StarkDemo.demoReg StarkDemo.demoHttpErr).2
      ["github"] ["rust"] StarkDemo.demoSt0).1⟩

/-- C5: a fetch for a source absent from the registry returns a Failure
outcome with errorKind UnknownSource and leaves the state unchanged, and
the batch over that source still completes with a well-formed report. -/
theorem unknown_source_failure {α : Type} (ttl : Nat)
    (registry : List (String × SourceConfig))
    (http : String → String → Except (ErrKind × String) α)
    (s : String) (qs : List String) (st : FetchState α)
    (hr : dictGet s registry = none) (hc : st.cache = []) :
    (∀ q, fetch ttl registry http s q st =
      (.failure s q .unknownSource "unknown source", st)) ∧
    (collect ttl registry http qs [s] st).1 =
      [(s, qs.map fun q => .failure s q .unknownSource "unknown source")] := by
  have hone : ∀ q, fetch ttl registry http s q st =
      (.failure s q .unknownSource "unknown source", st) := by
    intro q
    apply fetch_unknown
    · show cacheGet ttl st.now st.cache (s ++ q) = none
      rw [hc]
      rfl
    · exact hr
  have hrun : ∀ qs' : List String, runQueries ttl registry http s qs' st =
      (qs'.map (fun q => .failure s q .unknownSource "unknown source"), st) := by
    intro qs'
    induction qs' with
    | nil => rfl
    | cons q qs' ih => simp [runQueries, hone q, ih]
  exact ⟨hone, by simp [collect, hrun]⟩

/-- Witness for C5: the source nosuch is not in the registry. -/
theorem unknown_source_failure_witness :
    fetch 300 StarkDemo.demoReg StarkDemo.demoHttp "nosuch" "q" StarkDemo.demoSt0 =
      (.failure "nosuch" "q" .unknownSource "unknown source", StarkDemo.demoSt0) ∧
    (collect 300 StarkDemo.demoReg StarkDemo.demoHttp ["q"] ["nosuch"]
      StarkDemo.demoSt0).1 =
      [("nosuch", [.failure "nosuch" "q" .unknownSource "unknown source"])] :=
  ⟨(unknown_source_failure 300 StarkDemo.demoReg StarkDemo.demoHttp "nosuch" ["q"]
      StarkDemo.demoSt0 rfl rfl).1 "q",
   (unknown_source_failure 300 StarkDemo.demoReg StarkDemo.demoHttp "nosuch" ["q"]
      StarkDemo.demoSt0 rfl rfl).2⟩

/-- C6: for every list of sources and queries, the report's key list is
exactly the requested source list (a source with zero outcomes appears
with an empty sequence, never as a missing key) and the total outcome
count equals the number of sources times the number of queries. -/
theorem collect_report_complete {α : Type} (ttl : Nat)
    (registry : List (String × SourceConfig))
    (http : String → String → Except (ErrKind × String) α)
    (sources queries : List String) (st : FetchState α) :
    (collect ttl registry http queries sources st).1.map Prod.fst = sources ∧
    ((collect ttl registry http queries sources st).1.map
      (fun p => p.2.length)).sum = sources.length * queries.length :=
  ⟨collect_keys ttl registry http queries sources st,
   collect_count ttl registry http queries sources st⟩

/-- C7: put stores the value with storedAt equal to the put time and
overwrites any prior entry under the key (last-writer-wins); a get
immediately after the second put returns the second value. -/
theorem cachePut_overwrites {α : Type} (ttl t1 t2 : Nat) (c : Cache α)
    (key : String) (v1 v2 : α) (h : 0 < ttl) :
    dictGet key (cachePut t2 key v2 (cachePut t1 key v1 c)) =
      some { value := v2, storedAt := t2 } ∧
    cacheGet ttl t2 (cachePut t2 key v2 (cachePut t1 key v1 c)) key =
      some { value := v2, storedAt := t2 } := by
  constructor
  · exact dictGet_dictSet_self key _ _
  · exact cacheGet_fresh ttl t2 _ key _ (dictGet_dictSet_self key _ _)
      (by simpa using h)

/-- Witness for C7: two puts at times 10 and 20 under the same key. -/
theorem cachePut_overwrites_witness :
    dictGet "k" (cachePut 20 "k" (2 : Nat) (cachePut 10 "k" 1 [])) =
      some { value := 2, storedAt := 20 } ∧
    cacheGet 300 20 (cachePut 20 "k" (2 : Nat) (cachePut 10 "k" 1 [])) "k" =
      some { value := 2, storedAt := 20 } :=
  cachePut_overwrites 300 10 20 [] "k" 1 2 (by decide)

/-- C8: in the serialized order in which the rate limiter grants requests
for one source (the per-source read-compute-update sequence is serialized
across all concurrent workers), any two consecutive issue times are at
least minInterval apart, and each granted request resets the clock: the
next wait is measured from the new grant time (fixed-interval spacing,
no burst credit). -/
theorem rate_limiter_spacing (minInterval : Nat) (last : Option Nat)
    (ts : List Nat) :
    List.Chain' (fun a b => a + minInterval ≤ b) (grantTrace minInterval last ts) ∧
    ∀ (g t : Nat) (ts2 : List Nat),
      grantTrace minInterval (some g) (t :: ts2) =
        max t (g + minInterval) ::
          grantTrace minInterval (some (max t (g + minInterval))) ts2 :=
  ⟨grantTrace_chain minInterval ts last, fun _ _ _ => rfl⟩

end StarkSpec

namespace StarkCode

/-- C4: a failing fetch leaves the data cache unchanged (failures are
never cached) for both collect_reddit_data and collect_twitter_data, and
the data a call returns never depends on the cache content, so an
identical subsequent request is computed from a fresh outbound call
rather than served a cached failure. -/
theorem failed_fetch_leaves_cache
    (hotc : String → Nat → Except PyErr (List Submission))
    (searchc : String → Nat → Except PyErr (Option (List RawTweet)))
    (subreddit_name query : String) (limit max_results : Nat)
    (cache : DataCache) (e1 e2 : PyErr)
    (h1 : hotc subreddit_name limit = .error e1)
    (h2 : searchc query max_results = .error e2) :
    collectRedditData (some hotc) subreddit_name limit cache = ([], cache) ∧
    collectTwitterData (some searchc) query max_results cache = ([], cache) ∧
    (∀ cl c1 c2, (collectRedditData cl subreddit_name limit c1).1 =
      (collectRedditData cl subreddit_name limit c2).1) ∧
    (∀ cl c1 c2, (collectTwitterData cl query max_results c1).1 =
      (collectTwitterData cl query max_results c2).1) := by
  refine ⟨?_, ?_, ?_, ?_⟩
  · simp [collectRedditData, h1]
  · simp [collectTwitterData, h2]
  · intro cl c1 c2
    cases cl with
    | none => rfl
    | some f =>
      cases hf : f subreddit_name limit with
      | error e => simp [collectRedditData, hf]
      | ok subs => simp [collectRedditData, hf]
  · intro cl c1 c2
    cases cl with
    | none => rfl
    | some f =>
      cases hf : f query max_results with
      | error e => simp [collectTwitterData, hf]
      | ok od =>
        cases od with
        | none => simp [collectTwitterData, hf]
        | some ts =>
          by_cases hts : ts = []
          · simp [collectTwitterData, hf, hts]
          · simp [collectTwitterData, hf, hts]

/-- Witness for C4: transports that always raise, on a non-empty cache. -/
theorem failed_fetch_leaves_cache_witness :
    collectRedditData (some StarkDemo.demoHotErr) "rust" 10 StarkDemo.demoCache =
      ([], StarkDemo.demoCache) ∧
    collectTwitterData (some StarkDemo.demoSearchErr) "ai" 10 StarkDemo.demoCache =
      ([], StarkDemo.demoCache) ∧
    (collectRedditData (some StarkDemo.demoHotErr) "rust" 10 StarkDemo.demoCache).1 =
      (collectRedditData (some StarkDemo.demoHotErr) "rust" 10 []).1 := by
  have H := failed_fetch_leaves_cache StarkDemo.demoHotErr StarkDemo.demoSearchErr
    "rust" "ai" 10 10 StarkDemo.demoCache "api down" "api down" rfl rfl
  exact ⟨H.1, H.2.1, H.2.2.1 (some StarkDemo.demoHotErr) StarkDemo.demoCache []⟩

/-- C9: with an uninitialized client each collector returns its empty
result (empty list, empty list, empty dict) without raising and without
modifying the data cache, and that return value equals the one produced
by a configured source that yielded no data. -/
theorem unconfigured_client_empty (subreddit_name query repo_name : String)
    (limit max_results : Nat) (cache : DataCache) :
    collectRedditData none subreddit_name limit cache = ([], cache) ∧
    collectTwitterData none query max_results cache = ([], cache) ∧
    collectGithubData none repo_name cache = ([], cache) ∧
    (∀ hotc, hotc subreddit_name limit = Except.ok [] →
      (collectRedditData (some hotc) subreddit_name limit cache).1 =
        (collectRedditData none subreddit_name limit cache).1) ∧
    (∀ searchc, searchc query max_results = Except.ok none →
      (collectTwitterData (some searchc) query max_results cache).1 =
        (collectTwitterData none query max_results cache).1) := by
  refine ⟨rfl, rfl, rfl, ?_, ?_⟩
  · intro hotc h
    simp [collectRedditData, h]
  · intro searchc h
    simp [collectTwitterData, h]

/-- Witness for C9: all three collectors at concrete inputs. -/
theorem unconfigured_client_empty_witness :
    collectRedditData none "rust" 10 StarkDemo.demoCache = ([], StarkDemo.demoCache) ∧
    collectTwitterData none "ai" 10 StarkDemo.demoCache = ([], StarkDemo.demoCache) ∧
    collectGithubData none "lean" StarkDemo.demoCache = ([], StarkDemo.demoCache) ∧
    (collectRedditData (some StarkDemo.demoHotEmpty) "rust" 10 StarkDemo.demoCache).1 =
      (collectRedditData none "rust" 10 StarkDemo.demoCache).1 ∧
    (collectTwitterData (some StarkDemo.demoSearchEmpty) "ai" 10 StarkDemo.demoCache).1 =
      (collectTwitterData none "ai" 10 StarkDemo.demoCache).1 := by
  have H := unconfigured_client_empty "rust" "ai" "lean" 10 10 StarkDemo.demoCache
  exact ⟨H.1, H.2.1, H.2.2.1, H.2.2.2.1 StarkDemo.demoHotEmpty rfl,
         H.2.2.2.2 StarkDemo.demoSearchEmpty rfl⟩

/-- C10: export_data with data_type all selects the entire cache
unchanged, and with any other data_type selects exactly the entries
whose key contains data_type as a substring anywhere in the key. -/
theorem exportSelect_substring (data_type : String) (cache : DataCache) :
    (data_type = "all" → exportSelect data_type cache = cache) ∧
    (data_type ≠ "all" → ∀ k v,
      (k, v) ∈ exportSelect data_type cache ↔
        ((k, v) ∈ cache ∧ ∃ p s, k.data = p ++ data_type.data ++ s)) := by
  constructor
  · intro h
    simp [exportSelect, h]
  · intro h k v
    simp [exportSelect, h, List.mem_filter, strHasSub, containsSub_iff]

/-- Witness for C10: a cache with a reddit and a github entry. -/
theorem exportSelect_substring_witness :
    exportSelect "all" StarkDemo.demoCache = StarkDemo.demoCache ∧
    (("reddit_rust", CacheVal.reddit []) ∈ exportSelect "reddit" StarkDemo.demoCache ↔
      (("reddit_rust", CacheVal.reddit []) ∈ StarkDemo.demoCache ∧
        ∃ p s, ("reddit_rust" : String).data = p ++ ("reddit" : String).data ++ s)) := by
  have H1 := exportSelect_substring "all" StarkDemo.demoCache
  have H2 := exportSelect_substring "reddit" StarkDemo.demoCache
  exact ⟨H1.1 rfl, H2.2 (by decide) "reddit_rust" (CacheVal.reddit [])⟩

end StarkCode
